import Mathlib

/-!
Verification of the UK government website content scraper against its
natural-language specification.

The repository has two pipelines sharing one pydantic data model
(`models.py`):

* the Fetcher (`scrape_urls.py`): deduplicates input paths, queries the
  content API in batches of 10 with a single 429 retry, filters unwanted
  document types, merges multi-part "guide" documents into one body,
  validates into `GovPage` records, converts bodies to markdown and
  aborts the whole run (`sys.exit(1)`) when a record has no body;
* the Synthesizer (`generate_synthetic_data.py`): for each record with a
  non-empty body makes two language-model calls and, when both succeed,
  attaches a `SyntheticData` augmentation.

The embedding below is shallow: JSON dictionaries become structures with
`Option` fields (`none` = key absent or null), external effects (the HTTP
client, the HTML-to-markdown converter, the language model) become oracle
functions passed as parameters, exceptions and `sys.exit` become `Option`
results, and wall-clock time becomes an explicit rational-valued clock.
-/

/-- One entry of a guide's `parts` list (`scrape_urls.py` lines 121-129).
`title = none` models the `title` key being absent from the part's JSON
object; `title = some ""` models the key being present with an empty
string.  Likewise for `body`. -/
structure GuidePart where
  title : Option String
  body : Option String
deriving DecidableEq

/-- Python truthiness of an optional string: `part.get('body')` is truthy
exactly when the key is present and its value is a non-empty string. -/
def optNonEmpty : Option String → Bool
  | some s => s ≠ ""
  | none => false

/-- The fields of a content-API JSON response consumed by the Fetcher.
`document_type`, `title`, `base_path`, `content_id`, `schema_name` map
`response.get(...)`; `details_body` and `details_parts` are the `body` and
`parts` keys of the `details` sub-object (`details_parts = none` models
`'parts' not in response['details']`).  Fields the claims never touch
(links, locale, timestamps, ...) are omitted; the `details` object itself
is taken as present. -/
structure ApiResponse where
  document_type : Option String
  title : Option String
  base_path : Option String
  content_id : Option String
  schema_name : Option String
  details_body : Option String
  details_parts : Option (List GuidePart)
deriving DecidableEq

/-- The inner loop of the guide normalization (`scrape_urls.py` lines
124-128): fold over the parts, appending
`"\n\n## " ++ part.get('title', 'Untitled Section') ++ "\n\n" ++ part['body']`
for every part whose body is truthy.  Note `dict.get` with a default
falls back only when the key is ABSENT: a present empty-string title is
used as-is. -/
def combineParts (acc : String) : List GuidePart → String
  | [] => acc
  | p :: ps =>
      if optNonEmpty p.body then
        combineParts (acc ++ "\n\n## " ++ p.title.getD "Untitled Section"
          ++ "\n\n" ++ p.body.getD "") ps
      else
        combineParts acc ps

/-- Guide normalization (`scrape_urls.py` lines 121-129): when the
document type is `"guide"` and the `parts` key is present in `details`,
overwrite `details['body']` with the combined body. -/
def normalizeGuide (r : ApiResponse) : ApiResponse :=
  if r.document_type = some "guide" ∧ r.details_parts ≠ none then
    { r with details_body := some (combineParts "" (r.details_parts.getD [])) }
  else
    r

/-- The heading+body block contributed by one part, as the code builds it
(title defaults only when the key is absent). -/
def partBlock (p : GuidePart) : String :=
  "\n\n## " ++ p.title.getD "Untitled Section" ++ "\n\n" ++ p.body.getD ""

/-- The claim's (and spec §8's) reading of the per-part default: `part.title
or "Untitled Section"`, i.e. the default also applies when the title is
present but EMPTY.  This is the spec-side definition used to test claim C1;
it is not what the code does. -/
def partBlockClaim (p : GuidePart) : String :=
  "\n\n## "
    ++ (match p.title with
        | some t => if t = "" then "Untitled Section" else t
        | none => "Untitled Section")
    ++ "\n\n" ++ p.body.getD ""

/-- The claimed combined body: ordered concatenation of `partBlockClaim`
over exactly the parts with a non-empty body. -/
def combinedBodyClaim (ps : List GuidePart) : String :=
  String.join ((ps.filter (fun p => optNonEmpty p.body)).map partBlockClaim)

/-- Folding string append from an arbitrary initial string factors the
initial string out front. -/
theorem stringFoldl_append_init (l : List String) : ∀ a : String,
    l.foldl (fun r t => r ++ t) a = a ++ l.foldl (fun r t => r ++ t) "" := by
  induction l with
  | nil => intro a; simp
  | cons s l ih =>
      intro a
      simp only [List.foldl_cons]
      rw [ih (a ++ s), ih ("" ++ s)]
      simp [String.append_assoc]

/-- `String.join` peels off its head. -/
theorem stringJoin_cons (s : String) (l : List String) :
    String.join (s :: l) = s ++ String.join l := by
  simp only [String.join, List.foldl_cons]
  exact stringFoldl_append_init l ("" ++ s) |>.trans (by simp)

/-- `combineParts` with accumulator `acc` prepends `acc` to the filtered
concatenation of the per-part blocks. -/
theorem combineParts_eq_join (ps : List GuidePart) : ∀ acc : String,
    combineParts acc ps
      = acc ++ String.join ((ps.filter (fun p => optNonEmpty p.body)).map partBlock) := by
  induction ps with
  | nil => intro acc; simp [combineParts, String.join]
  | cons p ps ih =>
      intro acc
      by_cases h : optNonEmpty p.body
      · rw [show combineParts acc (p :: ps)
              = combineParts (acc ++ "\n\n## " ++ p.title.getD "Untitled Section"
                  ++ "\n\n" ++ p.body.getD "") ps from by simp [combineParts, h]]
        rw [ih, show List.filter (fun q => optNonEmpty q.body) (p :: ps)
              = p :: List.filter (fun q => optNonEmpty q.body) ps from by
                simp [List.filter_cons, h],
            List.map_cons, stringJoin_cons]
        simp [partBlock, String.append_assoc]
      · rw [show combineParts acc (p :: ps) = combineParts acc ps from by
              simp [combineParts, h]]
        rw [ih, show List.filter (fun q => optNonEmpty q.body) (p :: ps)
              = List.filter (fun q => optNonEmpty q.body) ps from by
                simp [List.filter_cons, h]]

/-- The snippet pair of `models.py` (`Snippet`). -/
structure Snippet where
  well_written_snippet : String
  badly_written_snippet : String
deriving DecidableEq

/-- `models.py` `ArticleSnippets`: an ordered list of snippet pairs. -/
structure ArticleSnippets where
  snippets : List Snippet
deriving DecidableEq

/-- `models.py` `SyntheticData`: a degraded full rewrite plus optional
snippets. -/
structure SyntheticData where
  poorly_written_article : String
  article_snippets : Option ArticleSnippets
deriving DecidableEq

/-- `models.py` `GovPageDetails`, restricted to the fields the claims
touch (`body`, `parts`). -/
structure GovPageDetails where
  body : Option String
  parts : Option (List GuidePart)
deriving DecidableEq

/-- `models.py` `GovPage`, restricted to the fields the claims touch.
`title`, `base_path`, `content_id`, `document_type`, `schema_name` are
required (no default) in the pydantic model, so validation fails when the
corresponding response key is absent or null. -/
structure GovPage where
  title : String
  base_path : String
  content_id : String
  document_type : String
  schema_name : String
  details : GovPageDetails
  synthetic_data : Option SyntheticData
deriving DecidableEq

/-- Pydantic validation `GovPage(**response)` (`scrape_urls.py` line 131):
succeeds iff every required string field is present (possibly empty —
pydantic accepts an empty string for a required `str`), carrying the
details over; a validation error is an exception, caught at line 152 and
turned into `sys.exit(1)`, hence `none` here.  The `links` sub-object is
not modeled; responses are taken to carry a valid one. -/
def validateGovPage (r : ApiResponse) : Option GovPage :=
  match r.title, r.base_path, r.content_id, r.document_type, r.schema_name with
  | some t, some bp, some cid, some dt, some sn =>
      some ⟨t, bp, cid, dt, sn, ⟨r.details_body, r.details_parts⟩, none⟩
  | _, _, _, _, _ => none

/-- The Fetcher's per-record exclusion set (`scrape_urls.py` line 99,
`SKIP_TYPES`). -/
def SKIP_TYPES : List String := ["government", "mainstream_browse_page"]

/-- State threaded through the `process_pages` loop: the accumulated
`gov_pages` list and the `skipped_types` tally (total function so that
"increments by exactly one" is expressible pointwise). -/
structure ProcState where
  pages : List GovPage
  skipped : String → Nat

/-- One iteration of the `process_pages` loop (`scrape_urls.py` lines
101-156) on a `(path, response)` pair, parameterized by the
HTML-to-markdown converter `md` (the external `html2text` call at line
142, out of scope).  `none` models `sys.exit(1)`: the process dies, no
output file is written.  Steps, in source order: a falsy response is
skipped; a `SKIP_TYPES` document type bumps its tally and is skipped;
guide parts are merged into the body; the payload is validated (failure
exits via the generic handler at line 156); an empty or missing body
exits at line 149; otherwise the body is converted to markdown and the
record appended. -/
def procStep (md : String → String) (st : ProcState) :
    String × Option ApiResponse → Option ProcState
  | (_, none) => some st
  | (_, some r) =>
      match r.document_type with
      | some dt =>
          if dt ∈ SKIP_TYPES then
            some ⟨st.pages, fun t => if t = dt then st.skipped t + 1 else st.skipped t⟩
          else
            match validateGovPage (normalizeGuide r) with
            | none => none
            | some g =>
                match g.details.body with
                | some b =>
                    if b = "" then none
                    else some ⟨st.pages ++
                      [{ g with details := { g.details with body := some (md b) } }],
                      st.skipped⟩
                | none => none
      | none =>
          match validateGovPage (normalizeGuide r) with
          | none => none
          | some _ => none

/-- The `process_pages` loop over the `(path, response)` results
(`scrape_urls.py` lines 101-156).  `none` propagates a `sys.exit(1)`: the
run dies at that record and nothing is returned or persisted (the JSON
dump at line 195 only runs when `process_pages` returns). -/
def processPages (md : String → String) :
    List (String × Option ApiResponse) → ProcState → Option ProcState
  | [], st => some st
  | x :: xs, st =>
      match procStep md st x with
      | none => none
      | some st' => processPages md xs st'

/-- An HTTP response as consumed by the Fetcher: its status code and its
parsed JSON body (only inspected when the status passes
`raise_for_status`, i.e. is below 400). -/
structure HttpResponse where
  status : Nat
  data : ApiResponse
deriving DecidableEq

/-- The placeholder/redirect filter applied right after a successful
request (`scrape_urls.py` lines 62-66): such responses are recorded as
`(path, None)`, exactly like request failures. -/
def dropPlaceholderRedirect (d : ApiResponse) : Option ApiResponse :=
  if d.document_type = some "placeholder" ∨ d.document_type = some "redirect" then
    none
  else
    some d

/-- Trace of the per-path request logic: how many HTTP GETs were issued,
how many seconds were slept before a retry, and the recorded result. -/
structure QueryTrace where
  requests : Nat
  waited : Nat
  result : Option ApiResponse
deriving DecidableEq

/-- The per-path body of `batch_query_govuk_api` (`scrape_urls.py` lines
50-72), parameterized by an HTTP oracle: `http path n` is the outcome of
the `n`-th GET for `path` (`0` the first attempt, `1` the retry), `none`
modelling a raised `requests.exceptions.RequestException`.  A 429 status
on the first attempt sleeps 5 seconds and retries exactly once;
`raise_for_status` (status ≥ 400) and request exceptions are caught and
recorded as `(path, None)`. -/
def queryOne (http : String → Nat → Option HttpResponse) (path : String) : QueryTrace :=
  match http path 0 with
  | none => ⟨1, 0, none⟩
  | some resp =>
      if resp.status = 429 then
        match http path 1 with
        | none => ⟨2, 5, none⟩
        | some retry =>
            if 400 ≤ retry.status then ⟨2, 5, none⟩
            else ⟨2, 5, dropPlaceholderRedirect retry.data⟩
      else if 400 ≤ resp.status then ⟨1, 0, none⟩
      else ⟨1, 0, dropPlaceholderRedirect resp.data⟩

/-- `batch_query_govuk_api` (`scrape_urls.py` lines 31-79): process the
paths in batches of 10, appending one `(path, result)` pair per path.
Batching affects only the inter-batch sleep (modeled separately by
`fetchBatchStart`), not the results. -/
def batchQuery (http : String → Nat → Option HttpResponse) :
    List String → List (String × Option ApiResponse)
  | [] => []
  | p :: ps =>
      ((p :: ps).take 10).map (fun q => (q, (queryOne http q).result))
        ++ batchQuery http ((p :: ps).drop 10)
termination_by l => l.length
decreasing_by
  simp only [List.length_drop, List.length_cons]
  omega

/-- Batching is transparent to the result list: `batch_query_govuk_api`
records exactly one result per path, in input order. -/
theorem batchQuery_eq_map_aux (http : String → Nat → Option HttpResponse) :
    ∀ n (l : List String), l.length ≤ n →
      batchQuery http l = l.map (fun q => (q, (queryOne http q).result)) := by
  intro n
  induction n with
  | zero =>
      intro l h
      match l with
      | [] => simp [batchQuery]
  | succ n ih =>
      intro l h
      match l with
      | [] => simp [batchQuery]
      | p :: ps =>
          rw [batchQuery, ih ((p :: ps).drop 10)
              (by simp only [List.length_drop, List.length_cons] at h ⊢; omega),
            ← List.map_append, List.take_append_drop]

/-- `batchQuery` equals a plain map over the paths. -/
theorem batchQuery_eq_map (http : String → Nat → Option HttpResponse) (l : List String) :
    batchQuery http l = l.map (fun q => (q, (queryOne http q).result)) :=
  batchQuery_eq_map_aux http l.length l le_rfl

/-- First-occurrence deduplication, generalized over the set of values
already seen. -/
def dedupSeen (seen : List String) : List String → List String
  | [] => []
  | x :: xs => if x ∈ seen then dedupSeen seen xs else x :: dedupSeen (x :: seen) xs

/-- `df.drop_duplicates(subset=['Path'])` (`scrape_urls.py` line 167):
keep the first occurrence of each path, preserving row order. -/
def dedupFirst (paths : List String) : List String := dedupSeen [] paths

/-- The Fetcher pipeline end to end (`scrape_urls.py` `main` plus
`process_pages`): deduplicate, query, process.  `none` models the run
dying through `sys.exit(1)` with no output file written. -/
def fetchRun (md : String → String) (http : String → Nat → Option HttpResponse)
    (paths : List String) : Option ProcState :=
  processPages md (batchQuery http (dedupFirst paths)) ⟨[], fun _ => 0⟩

/-- The per-page body of `process_batch` (`generate_synthetic_data.py`
lines 84-104), parameterized by the two language-model calls:
`rewriteCall b` is the parsed `poorly_written_article` from
`get_synthetic_text(b)` and `snippetsCall b` the parsed snippet list from
`get_article_snippets(b)`; `none` models the call raising (network,
schema-validation or service error).  The page is touched only when its
body is truthy; `synthetic_data` is assigned once, after BOTH calls have
succeeded, so a failure in either call (the second included, which runs
after the first succeeded) leaves the page unchanged. -/
def synthOne (rewriteCall : String → Option String)
    (snippetsCall : String → Option (List Snippet)) (page : GovPage) : GovPage :=
  match page.details.body with
  | some b =>
      if b = "" then page
      else
        match rewriteCall b with
        | none => page
        | some art =>
            match snippetsCall b with
            | none => page
            | some snips =>
                { page with synthetic_data := some ⟨art, some ⟨snips⟩⟩ }
  | none => page

/-- `process_batch` applied to one slice, with the oracles indexed by the
absolute record position so that distinct records may fail or succeed
independently. -/
def synthMapFrom (rewriteAt : Nat → String → Option String)
    (snippetsAt : Nat → String → Option (List Snippet)) :
    Nat → List GovPage → List GovPage
  | _, [] => []
  | i, p :: ps =>
      synthOne (rewriteAt i) (snippetsAt i) p
        :: synthMapFrom rewriteAt snippetsAt (i + 1) ps

/-- The Synthesizer main loop (`generate_synthetic_data.py` lines
200-224): slice the pages into batches of 10 (`process_batch(pages, i)`),
process each batch in order and concatenate the results
(`processed_pages.extend(batch)`). -/
def synthMain (rewriteAt : Nat → String → Option String)
    (snippetsAt : Nat → String → Option (List Snippet)) :
    Nat → List GovPage → List GovPage
  | _, [] => []
  | i, p :: ps =>
      synthMapFrom rewriteAt snippetsAt i ((p :: ps).take 10)
        ++ synthMain rewriteAt snippetsAt (i + 10) ((p :: ps).drop 10)
termination_by _ l => l.length
decreasing_by
  simp only [List.length_drop, List.length_cons]
  omega

/-- `synthMapFrom` distributes over list append, shifting the index by
the length of the first block. -/
theorem synthMapFrom_append (rewriteAt : Nat → String → Option String)
    (snippetsAt : Nat → String → Option (List Snippet)) (a : List GovPage) :
    ∀ (i : Nat) (b : List GovPage),
      synthMapFrom rewriteAt snippetsAt i (a ++ b)
        = synthMapFrom rewriteAt snippetsAt i a
            ++ synthMapFrom rewriteAt snippetsAt (i + a.length) b := by
  induction a with
  | nil => intro i b; simp [synthMapFrom]
  | cons p ps ih =>
      intro i b
      simp only [List.cons_append, synthMapFrom, List.append_eq, ih, List.length_cons]
      rw [show i + (ps.length + 1) = i + 1 + ps.length from by omega]

/-- Batching is transparent to the processed records: the Synthesizer
main loop equals a single indexed map over the whole page list. -/
theorem synthMain_eq_mapFrom_aux (rewriteAt : Nat → String → Option String)
    (snippetsAt : Nat → String → Option (List Snippet)) :
    ∀ (n : Nat) (l : List GovPage) (i : Nat), l.length ≤ n →
      synthMain rewriteAt snippetsAt i l = synthMapFrom rewriteAt snippetsAt i l := by
  intro n
  induction n with
  | zero =>
      intro l i h
      match l with
      | [] => simp [synthMain, synthMapFrom]
  | succ n ih =>
      intro l i h
      match l with
      | [] => simp [synthMain, synthMapFrom]
      | p :: ps =>
          rw [synthMain, ih ((p :: ps).drop 10) (i + 10)
              (by simp only [List.length_drop, List.length_cons] at h ⊢; omega)]
          by_cases h10 : (p :: ps).length ≤ 10
          · rw [List.take_of_length_le h10, List.drop_eq_nil_of_le h10]
            simp [synthMapFrom]
          · conv =>
              rhs
              rw [← List.take_append_drop 10 (p :: ps)]
            rw [synthMapFrom_append, List.length_take,
              show min 10 (p :: ps).length = 10 from by omega]

/-- `synthMain` starting at index 0 is the indexed map. -/
theorem synthMain_eq_mapFrom (rewriteAt : Nat → String → Option String)
    (snippetsAt : Nat → String → Option (List Snippet)) (l : List GovPage) (i : Nat) :
    synthMain rewriteAt snippetsAt i l = synthMapFrom rewriteAt snippetsAt i l :=
  synthMain_eq_mapFrom_aux rewriteAt snippetsAt l.length l i le_rfl

/-- Replace a page's `synthetic_data` field, leaving every other field in
place (used to state that the Synthesizer touches nothing else). -/
def setSynth (g : GovPage) (o : Option SyntheticData) : GovPage :=
  { g with synthetic_data := o }

/-- Wall-clock start time (in seconds) of the Fetcher's `i`-th batch,
given that batch `j` takes `d j` seconds of processing: each batch is
followed by `time.sleep(1 - batch_duration)` whenever it finished in
under a second (`scrape_urls.py` lines 74-77), i.e. a pad of
`max 0 (1 - d j)`. -/
def fetchBatchStart (d : Nat → ℚ) : Nat → ℚ
  | 0 => 0
  | i + 1 => fetchBatchStart d i + d i + max 0 (1 - d i)

/-- With nonnegative batch durations, consecutive batch starts are at
least one second apart. -/
theorem fetchBatchStart_succ_ge (d : Nat → ℚ) (i : Nat) :
    fetchBatchStart d i + 1 ≤ fetchBatchStart d (i + 1) := by
  have h1 : (1 : ℚ) ≤ d i + max 0 (1 - d i) := by
    rcases le_total (d i) 1 with h | h
    · rw [max_eq_right (by linarith)]
      linarith
    · rw [max_eq_left (by linarith)]
      linarith
  calc fetchBatchStart d i + 1 ≤ fetchBatchStart d i + (d i + max 0 (1 - d i)) := by
        linarith
    _ = fetchBatchStart d (i + 1) := by rw [fetchBatchStart]; ring

/-- Batch starts grow at least linearly: batch `i` starts no earlier than
`i` seconds into the run. -/
theorem fetchBatchStart_ge (d : Nat → ℚ) :
    ∀ i : Nat, (i : ℚ) ≤ fetchBatchStart d i := by
  intro i
  induction i with
  | zero => simp [fetchBatchStart]
  | succ i ih =>
      have := fetchBatchStart_succ_ge d i
      push_cast
      linarith

/-- Number of loop iterations of `range(0, n, bs)` for `bs > 0`: the
number of batches over `n` records. -/
def numBatches (n bs : Nat) : Nat := (n + bs - 1) / bs

/-- Number of `time.sleep(1)` pauses the Synthesizer main loop performs
(`generate_synthetic_data.py` lines 221-224): one per batch start index
`i = k*bs` with `i + batch_size < len(pages)`. -/
def synthSleepCount (n bs : Nat) : Nat :=
  ((List.range (numBatches n bs)).filter (fun k => decide (k * bs + bs < n))).length

/-- Index of the first occurrence of `x` in a list (length of the list
when absent). -/
def firstIdx (x : String) : List String → Nat
  | [] => 0
  | y :: ys => if y = x then 0 else firstIdx x ys + 1

/-- Membership in the generalized dedup: kept iff present and not yet
seen. -/
theorem dedupSeen_mem (a : String) :
    ∀ (xs seen : List String), a ∈ dedupSeen seen xs ↔ a ∈ xs ∧ a ∉ seen := by
  intro xs
  induction xs with
  | nil => intro seen; simp [dedupSeen]
  | cons x xs ih =>
      intro seen
      by_cases hx : x ∈ seen
      · rw [show dedupSeen seen (x :: xs) = dedupSeen seen xs from by simp [dedupSeen, hx]]
        rw [ih seen]
        constructor
        · rintro ⟨h1, h2⟩
          exact ⟨List.mem_cons_of_mem x h1, h2⟩
        · rintro ⟨h1, h2⟩
          rcases List.mem_cons.mp h1 with rfl | h1
          · exact absurd hx h2
          · exact ⟨h1, h2⟩
      · rw [show dedupSeen seen (x :: xs) = x :: dedupSeen (x :: seen) xs from by
            simp [dedupSeen, hx]]
        rw [List.mem_cons, ih (x :: seen)]
        constructor
        · rintro (rfl | ⟨h1, h2⟩)
          · exact ⟨List.mem_cons_self a xs, hx⟩
          · exact ⟨List.mem_cons_of_mem x h1, fun hs => h2 (List.mem_cons_of_mem x hs)⟩
        · rintro ⟨h1, h2⟩
          rcases List.mem_cons.mp h1 with rfl | h1
          · exact Or.inl rfl
          · by_cases hax : a = x
            · exact Or.inl hax
            · exact Or.inr ⟨h1, fun hs => by
                rcases List.mem_cons.mp hs with h | h
                · exact hax h
                · exact h2 h⟩

/-- The generalized dedup is a sublist of its input. -/
theorem dedupSeen_sublist :
    ∀ (xs seen : List String), (dedupSeen seen xs).Sublist xs := by
  intro xs
  induction xs with
  | nil => intro seen; simp [dedupSeen]
  | cons x xs ih =>
      intro seen
      by_cases hx : x ∈ seen
      · rw [show dedupSeen seen (x :: xs) = dedupSeen seen xs from by simp [dedupSeen, hx]]
        exact (ih seen).cons x
      · rw [show dedupSeen seen (x :: xs) = x :: dedupSeen (x :: seen) xs from by
            simp [dedupSeen, hx]]
        exact (ih (x :: seen)).cons₂ x

/-- The generalized dedup has no duplicates. -/
theorem dedupSeen_nodup :
    ∀ (xs seen : List String), (dedupSeen seen xs).Nodup := by
  intro xs
  induction xs with
  | nil => intro seen; simp [dedupSeen]
  | cons x xs ih =>
      intro seen
      by_cases hx : x ∈ seen
      · rw [show dedupSeen seen (x :: xs) = dedupSeen seen xs from by simp [dedupSeen, hx]]
        exact ih seen
      · rw [show dedupSeen seen (x :: xs) = x :: dedupSeen (x :: seen) xs from by
            simp [dedupSeen, hx]]
        refine List.nodup_cons.mpr ⟨fun hmem => ?_, ih (x :: seen)⟩
        exact ((dedupSeen_mem x xs (x :: seen)).mp hmem).2 (List.mem_cons_self x seen)

/-- `firstIdx` ignores a head different from its argument, shifting by
one. -/
theorem firstIdx_cons_ne (a x : String) (xs : List String) (h : a ≠ x) :
    firstIdx a (x :: xs) = firstIdx a xs + 1 := by
  have h' : ¬x = a := fun e => h e.symm
  simp [firstIdx, h']

/-- The kept elements appear in strictly increasing order of their first
occurrence in the input. -/
theorem dedupSeen_pairwise :
    ∀ (xs seen : List String),
      (dedupSeen seen xs).Pairwise (fun a b => firstIdx a xs < firstIdx b xs) := by
  intro xs
  induction xs with
  | nil => intro seen; simp [dedupSeen]
  | cons x xs ih =>
      intro seen
      by_cases hx : x ∈ seen
      · rw [show dedupSeen seen (x :: xs) = dedupSeen seen xs from by simp [dedupSeen, hx]]
        refine List.Pairwise.imp_of_mem ?_ (ih seen)
        intro a b ha hb hab
        have hax : a ≠ x := fun e => ((dedupSeen_mem a xs seen).mp ha).2 (e ▸ hx)
        have hbx : b ≠ x := fun e => ((dedupSeen_mem b xs seen).mp hb).2 (e ▸ hx)
        rw [firstIdx_cons_ne a x xs hax, firstIdx_cons_ne b x xs hbx]
        omega
      · rw [show dedupSeen seen (x :: xs) = x :: dedupSeen (x :: seen) xs from by
            simp [dedupSeen, hx]]
        refine List.pairwise_cons.mpr ⟨?_, ?_⟩
        · intro b hb
          have hbx : b ≠ x :=
            fun e => ((dedupSeen_mem b xs (x :: seen)).mp hb).2 (e ▸ List.mem_cons_self x seen)
          rw [firstIdx_cons_ne b x xs hbx]
          simp [firstIdx]
        · refine List.Pairwise.imp_of_mem ?_ (ih (x :: seen))
          intro a b ha hb hab
          have hax : a ≠ x :=
            fun e => ((dedupSeen_mem a xs (x :: seen)).mp ha).2 (e ▸ List.mem_cons_self x seen)
          have hbx : b ≠ x :=
            fun e => ((dedupSeen_mem b xs (x :: seen)).mp hb).2 (e ▸ List.mem_cons_self x seen)
          rw [firstIdx_cons_ne a x xs hax, firstIdx_cons_ne b x xs hbx]
          omega

/-- `processPages` over a concatenation: run the prefix, then the rest
from the resulting state (dying in the prefix kills the whole run). -/
theorem processPages_append (md : String → String)
    (pre : List (String × Option ApiResponse)) :
    ∀ (rest : List (String × Option ApiResponse)) (st : ProcState),
      processPages md (pre ++ rest) st
        = match processPages md pre st with
          | none => none
          | some st' => processPages md rest st' := by
  induction pre with
  | nil => intro rest st; simp [processPages]
  | cons x xs ih =>
      intro rest st
      simp only [List.cons_append, processPages]
      cases procStep md st x with
      | none => rfl
      | some st' => exact ih rest st'

/-- Guide normalization never touches the document type. -/
theorem normalizeGuide_document_type (r : ApiResponse) :
    (normalizeGuide r).document_type = r.document_type := by
  unfold normalizeGuide
  split <;> rfl

/-- What successful validation tells us about the page: the document type
is carried over, the body is carried over, and `synthetic_data` starts
absent (the API never supplies one). -/
theorem validateGovPage_spec (r : ApiResponse) (g : GovPage)
    (h : validateGovPage r = some g) :
    r.document_type = some g.document_type ∧ g.details.body = r.details_body
      ∧ g.synthetic_data = none := by
  unfold validateGovPage at h
  split at h
  · obtain rfl := Option.some.inj h
    constructor
    · assumption
    · exact ⟨rfl, rfl⟩
  · exact absurd h (by simp)

/-- A record that validates but has no non-empty body kills the run:
`procStep` returns `none` (the `sys.exit(1)` at `scrape_urls.py` line
149). -/
theorem procStep_exit_of_no_body (md : String → String) (st : ProcState) (path : String)
    (r : ApiResponse) (g : GovPage)
    (hval : validateGovPage (normalizeGuide r) = some g)
    (hskip : g.document_type ∉ SKIP_TYPES)
    (hbody : optNonEmpty g.details.body = false) :
    procStep md st (path, some r) = none := by
  obtain ⟨hdt, hb, -⟩ := validateGovPage_spec _ _ hval
  rw [normalizeGuide_document_type] at hdt
  simp only [procStep]
  rw [hdt]
  simp only [hskip, if_false, hval]
  cases hgb : g.details.body with
  | none => rfl
  | some b =>
      rw [hgb] at hbody
      simp only [optNonEmpty, decide_eq_false_iff_not, Decidable.not_not] at hbody
      simp [hbody]

/-- A state-unchanged step: a missing (`None`) response is skipped with
no record and no tally change. -/
theorem procStep_none_response (md : String → String) (st : ProcState) (path : String) :
    procStep md st (path, none) = some st := rfl

/-- `synthMapFrom` preserves the number of records. -/
theorem synthMapFrom_length (rewriteAt : Nat → String → Option String)
    (snippetsAt : Nat → String → Option (List Snippet)) :
    ∀ (l : List GovPage) (i : Nat),
      (synthMapFrom rewriteAt snippetsAt i l).length = l.length := by
  intro l
  induction l with
  | nil => intro i; rfl
  | cons p ps ih => intro i; simp [synthMapFrom, ih]

/-- `synthOne` changes nothing but the `synthetic_data` field. -/
theorem synthOne_setSynth (rewriteCall : String → Option String)
    (snippetsCall : String → Option (List Snippet)) (page : GovPage) (o : Option SyntheticData) :
    setSynth (synthOne rewriteCall snippetsCall page) o = setSynth page o := by
  unfold synthOne setSynth
  cases page.details.body with
  | none => rfl
  | some b =>
      by_cases hb : b = ""
      · simp [hb]
      · simp only [hb, if_false]
        cases rewriteCall b with
        | none => rfl
        | some art =>
            cases snippetsCall b with
            | none => rfl
            | some snips => rfl

/-- A page without a truthy body is returned untouched by `synthOne`. -/
theorem synthOne_no_body (rewriteCall : String → Option String)
    (snippetsCall : String → Option (List Snippet)) (page : GovPage)
    (h : optNonEmpty page.details.body = false) :
    synthOne rewriteCall snippetsCall page = page := by
  unfold synthOne
  cases hgb : page.details.body with
  | none => rfl
  | some b =>
      rw [hgb] at h
      simp only [optNonEmpty, decide_eq_false_iff_not, Decidable.not_not] at h
      simp [h]

/-- A page whose rewrite call or snippet call fails is returned
untouched. -/
theorem synthOne_failure (rewriteCall : String → Option String)
    (snippetsCall : String → Option (List Snippet)) (page : GovPage)
    (h : ∀ b, page.details.body = some b →
      rewriteCall b = none ∨ snippetsCall b = none) :
    synthOne rewriteCall snippetsCall page = page := by
  unfold synthOne
  cases hgb : page.details.body with
  | none => rfl
  | some b =>
      by_cases hb : b = ""
      · simp [hb]
      · simp only [hb, if_false]
        rcases h b hgb with hf | hf
        · rw [hf]
        · cases rewriteCall b with
          | none => rfl
          | some art => rw [hf]

/-- A page with a truthy body whose two calls both succeed gets the full
augmentation attached. -/
theorem synthOne_success (rewriteCall : String → Option String)
    (snippetsCall : String → Option (List Snippet)) (page : GovPage)
    (b art : String) (snips : List Snippet)
    (hgb : page.details.body = some b) (hb : b ≠ "")
    (hrw : rewriteCall b = some art) (hsn : snippetsCall b = some snips) :
    synthOne rewriteCall snippetsCall page
      = setSynth page (some ⟨art, some ⟨snips⟩⟩) := by
  unfold synthOne setSynth
  rw [hgb]
  simp [hb, hrw, hsn]

/-- A guide response whose single part has a PRESENT but EMPTY title and
a non-empty body — the input separating the code's title default
(`dict.get`, absent-only) from the claim's (absent or empty). -/
def guideRespEmptyTitle : ApiResponse :=
  ⟨some "guide", some "t", some "/g", some "cid", some "guide",
    some "old", some [⟨some "", some "x"⟩]⟩

/-- C1, counterexample: for the part `{title: "", body: "x"}` the code
produces the heading `"\n\n## \n\n"` (empty title used as-is), not the
claimed `"\n\n## Untitled Section\n\n"`: the combined body differs from
the claim's concatenation. -/
theorem C1_counterexample :
    (normalizeGuide guideRespEmptyTitle).details_body
      ≠ some (combinedBodyClaim [⟨some "", some "x"⟩]) := by
  decide

/-- C1 (amended): for every API response with document type `"guide"` and
a non-empty `parts` list, the body stored on the record before validation
equals the ordered concatenation, over exactly those parts with a
non-empty body, of `"\n\n## "` ++ the part's title — defaulting to
`"Untitled Section"` only when the title key is ABSENT (a present empty
title is used as-is) — ++ `"\n\n"` ++ the part's body, in part order,
replacing any pre-existing top-level body. -/
theorem C1_guide_combined_body (r : ApiResponse) (ps : List GuidePart)
    (hdt : r.document_type = some "guide") (hp : r.details_parts = some ps)
    (_hne : ps ≠ []) :
    (normalizeGuide r).details_body
      = some (String.join ((ps.filter (fun p => optNonEmpty p.body)).map partBlock)) := by
  unfold normalizeGuide
  rw [if_pos ⟨hdt, by rw [hp]; exact Option.some_ne_none ps⟩]
  simp only [hp, Option.getD_some]
  rw [combineParts_eq_join]
  simp

/-- The parts list used by the C1 witness: an absent title, a normal
part, and a bodyless part that must be dropped. -/
def guideWitnessParts : List GuidePart :=
  [⟨none, some "b1"⟩, ⟨some "T2", some "b2"⟩, ⟨some "T3", none⟩]

/-- A well-formed guide response for the C1 witness. -/
def guideWitnessResp : ApiResponse :=
  ⟨some "guide", some "t", some "/g", some "cid", some "guide",
    some "old", some guideWitnessParts⟩

/-- C1 witness: the amended theorem applied to a concrete guide
response. -/
theorem C1_guide_combined_body_witness :
    (normalizeGuide guideWitnessResp).details_body
      = some (String.join ((guideWitnessParts.filter
          (fun p => optNonEmpty p.body)).map partBlock)) :=
  C1_guide_combined_body guideWitnessResp guideWitnessParts rfl rfl (by decide)

/-- C8: the path sequence the Fetcher passes to the API is the input with
each distinct path kept exactly once (no duplicates, same membership) at
its first occurrence (a sublist of the input whose elements are in
strictly increasing order of first occurrence). -/
theorem C8_dedup_first_occurrence (paths : List String) :
    (dedupFirst paths).Nodup ∧
    (∀ x, x ∈ dedupFirst paths ↔ x ∈ paths) ∧
    (dedupFirst paths).Sublist paths ∧
    (dedupFirst paths).Pairwise (fun a b => firstIdx a paths < firstIdx b paths) := by
  unfold dedupFirst
  refine ⟨dedupSeen_nodup paths [], ?_, dedupSeen_sublist paths [],
    dedupSeen_pairwise paths []⟩
  intro x
  rw [dedupSeen_mem x paths []]
  simp

/-- C3: a record that validates but carries no non-empty body kills the
whole run: `processPages` returns `none` (the `sys.exit(1)` at
`scrape_urls.py` line 149) no matter which records follow, so the record
itself and everything after it is never appended and no output is
written. -/
theorem C3_missing_body_fail_fast (md : String → String) (st st' : ProcState)
    (pre : List (String × Option ApiResponse)) (path : String) (r : ApiResponse)
    (g : GovPage) (ys : List (String × Option ApiResponse))
    (hpre : processPages md pre st = some st')
    (hval : validateGovPage (normalizeGuide r) = some g)
    (hskip : g.document_type ∉ SKIP_TYPES)
    (hbody : optNonEmpty g.details.body = false) :
    processPages md (pre ++ (path, some r) :: ys) st = none := by
  rw [processPages_append md pre ((path, some r) :: ys) st, hpre]
  show processPages md ((path, some r) :: ys) st' = none
  simp only [processPages]
  rw [procStep_exit_of_no_body md st' path r g hval hskip hbody]

/-- A response that validates fine but has no body at all. -/
def noBodyResp : ApiResponse :=
  ⟨some "news_story", some "t", some "/n", some "cid", some "news", none, none⟩

/-- The page `noBodyResp` validates to. -/
def noBodyPage : GovPage :=
  ⟨"t", "/n", "cid", "news_story", "news", ⟨none, none⟩, none⟩

/-- C3 witness: a concrete bodyless record aborts a one-record run. -/
theorem C3_missing_body_fail_fast_witness :
    processPages (fun s => s) ([] ++ ("/n", some noBodyResp) :: []) ⟨[], fun _ => 0⟩
      = none :=
  C3_missing_body_fail_fast (fun s => s) ⟨[], fun _ => 0⟩ ⟨[], fun _ => 0⟩ [] "/n"
    noBodyResp noBodyPage [] rfl (by decide) (by decide) rfl

/-- C10: a guide whose `parts` list contains no part with a non-empty
body gets `details['body'] = ""` from the normalization, and the record
then hits the missing-body fail-fast: `procStep` returns `none`
(`sys.exit(1)`), aborting the run rather than skipping the record. -/
theorem C10_guide_no_part_bodies (md : String → String) (st : ProcState) (path : String)
    (r : ApiResponse) (ps : List GuidePart) (g : GovPage)
    (hdt : r.document_type = some "guide")
    (hp : r.details_parts = some ps)
    (hnb : ∀ p ∈ ps, optNonEmpty p.body = false)
    (hval : validateGovPage (normalizeGuide r) = some g) :
    (normalizeGuide r).details_body = some "" ∧ procStep md st (path, some r) = none := by
  have hfilter : ps.filter (fun p => optNonEmpty p.body) = [] :=
    List.filter_eq_nil_iff.mpr (fun p hp' => by simp [hnb p hp'])
  have hbodyeq : (normalizeGuide r).details_body = some "" := by
    unfold normalizeGuide
    rw [if_pos ⟨hdt, by rw [hp]; exact Option.some_ne_none ps⟩]
    simp only [hp, Option.getD_some]
    rw [combineParts_eq_join, hfilter]
    simp [String.join]
  obtain ⟨hdt', hb, -⟩ := validateGovPage_spec _ _ hval
  refine ⟨hbodyeq, procStep_exit_of_no_body md st path r g hval ?_ ?_⟩
  · rw [normalizeGuide_document_type, hdt] at hdt'
    rw [← Option.some.inj hdt']
    decide
  · rw [hb, hbodyeq]
    rfl

/-- A guide response whose parts all lack bodies. -/
def guideNoBodiesResp : ApiResponse :=
  ⟨some "guide", some "t", some "/g2", some "cid2", some "guide",
    some "old", some [⟨some "T1", none⟩, ⟨some "T2", some ""⟩]⟩

/-- The page `guideNoBodiesResp` validates to after normalization. -/
def guideNoBodiesPage : GovPage :=
  ⟨"t", "/g2", "cid2", "guide", "guide", ⟨some "", some [⟨some "T1", none⟩,
    ⟨some "T2", some ""⟩]⟩, none⟩

/-- C10 witness: the concrete bodyless guide sets an empty body and
aborts. -/
theorem C10_guide_no_part_bodies_witness :
    (normalizeGuide guideNoBodiesResp).details_body = some ""
      ∧ procStep (fun s => s) ⟨[], fun _ => 0⟩ ("/g2", some guideNoBodiesResp) = none :=
  C10_guide_no_part_bodies (fun s => s) ⟨[], fun _ => 0⟩ "/g2" guideNoBodiesResp
    [⟨some "T1", none⟩, ⟨some "T2", some ""⟩] guideNoBodiesPage rfl rfl
    (by decide) (by decide)

/-- The combined treatment of one API response: the query-stage
placeholder/redirect filter (`scrape_urls.py` lines 62-66) followed by
one `process_pages` iteration on the recorded result. -/
def effStep (md : String → String) (st : ProcState) (path : String)
    (r : ApiResponse) : Option ProcState :=
  procStep md st (path, dropPlaceholderRedirect r)

/-- A placeholder response, otherwise fully populated. -/
def placeholderResp : ApiResponse :=
  ⟨some "placeholder", some "t", some "/p", some "cid", some "plc", some "b", none⟩

/-- An HTTP oracle answering every request with `placeholderResp`. -/
def httpPlaceholder : String → Nat → Option HttpResponse :=
  fun _ _ => some ⟨200, placeholderResp⟩

/-- C2, counterexample: one placeholder response through the whole
Fetcher pipeline appends no record — but the `"placeholder"` skip
counter stays 0, not the claimed 1: placeholder/redirect responses are
nulled out at the query stage and never reach the tally, which counts
only `SKIP_TYPES`. -/
theorem C2_counterexample :
    (fetchRun (fun s => s) httpPlaceholder ["/p"]).map
        (fun st => (st.pages, st.skipped "placeholder"))
      = some ([], 0) := by
  unfold fetchRun
  rw [batchQuery_eq_map]
  rfl

/-- C2 (amended): a response whose document type is placeholder,
redirect, government or mainstream_browse_page contributes no record;
the skip counter for the type is incremented by exactly one, but ONLY
for the two `SKIP_TYPES` (government, mainstream_browse_page) —
placeholder and redirect responses are dropped at the query stage and
leave every counter unchanged. -/
theorem C2_excluded_types (md : String → String) (st : ProcState) (path : String)
    (r : ApiResponse)
    (h : r.document_type ∈ [some "placeholder", some "redirect",
        some "government", some "mainstream_browse_page"]) :
    ∃ sk : String → Nat, effStep md st path r = some ⟨st.pages, sk⟩ ∧
      ∀ t, sk t = st.skipped t
        + (if r.document_type = some t ∧ t ∈ SKIP_TYPES then 1 else 0) := by
  simp only [List.mem_cons, List.not_mem_nil, or_false] at h
  have dropCase : ∀ s : String, r.document_type = some s → s ∉ SKIP_TYPES →
      dropPlaceholderRedirect r = none →
      ∃ sk : String → Nat, effStep md st path r = some ⟨st.pages, sk⟩ ∧
        ∀ t, sk t = st.skipped t
          + (if r.document_type = some t ∧ t ∈ SKIP_TYPES then 1 else 0) := by
    intro s hdt hns hdrop
    refine ⟨st.skipped, ?_, fun t => ?_⟩
    · rw [effStep, hdrop]
      rfl
    · have hc : ¬(r.document_type = some t ∧ t ∈ SKIP_TYPES) := by
        rintro ⟨h1, h2⟩
        rw [hdt] at h1
        obtain rfl := (Option.some.inj h1).symm
        exact hns h2
      rw [if_neg hc, Nat.add_zero]
  have skipCase : ∀ s : String, r.document_type = some s → s ∈ SKIP_TYPES →
      ∃ sk : String → Nat, effStep md st path r = some ⟨st.pages, sk⟩ ∧
        ∀ t, sk t = st.skipped t
          + (if r.document_type = some t ∧ t ∈ SKIP_TYPES then 1 else 0) := by
    intro s hdt hmem
    have hdrop : dropPlaceholderRedirect r = none → False := by
      intro hd
      unfold dropPlaceholderRedirect at hd
      split at hd
      · rename_i hor
        rcases hor with h1 | h1 <;> rw [hdt] at h1 <;>
          obtain rfl := (Option.some.inj h1).symm <;> revert hmem <;> decide
      · exact absurd hd (by simp)
    refine ⟨fun t => if t = s then st.skipped t + 1 else st.skipped t, ?_, fun t => ?_⟩
    · rw [effStep]
      cases hd : dropPlaceholderRedirect r with
      | none => exact absurd hd hdrop
      | some r' =>
          have hr' : r' = r := by
            unfold dropPlaceholderRedirect at hd
            split at hd
            · exact absurd hd (by simp)
            · exact (Option.some.inj hd).symm
          subst hr'
          simp only [procStep]
          rw [hdt]
          simp [hmem]
    · show (if t = s then st.skipped t + 1 else st.skipped t)
        = st.skipped t + (if r.document_type = some t ∧ t ∈ SKIP_TYPES then 1 else 0)
      by_cases ht : t = s
      · rw [if_pos ht, if_pos ⟨by rw [ht]; exact hdt, by rw [ht]; exact hmem⟩]
      · have hc : ¬(r.document_type = some t ∧ t ∈ SKIP_TYPES) := by
          rintro ⟨h1, -⟩
          rw [hdt] at h1
          exact ht (Option.some.inj h1).symm
        rw [if_neg ht, if_neg hc, Nat.add_zero]
  rcases h with hdt | hdt | hdt | hdt
  · exact dropCase "placeholder" hdt (by decide)
      (by unfold dropPlaceholderRedirect; rw [if_pos (Or.inl hdt)])
  · exact dropCase "redirect" hdt (by decide)
      (by unfold dropPlaceholderRedirect; rw [if_pos (Or.inr hdt)])
  · exact skipCase "government" hdt (by decide)
  · exact skipCase "mainstream_browse_page" hdt (by decide)

/-- A government-type response, otherwise fully populated. -/
def govResp : ApiResponse :=
  ⟨some "government", some "t", some "/gov", some "cid", some "gov", some "b", none⟩

/-- C2 witness: the amended statement at a concrete government
response. -/
theorem C2_excluded_types_witness :
    ∃ sk : String → Nat,
      effStep (fun s => s) ⟨[], fun _ => 0⟩ "/gov" govResp = some ⟨[], sk⟩ ∧
      ∀ t, sk t = 0 + (if govResp.document_type = some t ∧ t ∈ SKIP_TYPES then 1 else 0) :=
  C2_excluded_types (fun s => s) ⟨[], fun _ => 0⟩ "/gov" govResp (by decide)

/-- C4: a 429 on the first request for a path leads to exactly one retry
after a fixed 5-second wait; every other failure mode (a raised request
exception, a non-2xx status other than 429, a failing retry) records a
missing result for that path only, and every path still gets exactly one
entry, in order, in the result list. -/
theorem C4_retry_and_per_path_isolation (http : String → Nat → Option HttpResponse)
    (path : String) (resp : HttpResponse)
    (h0 : http path 0 = some resp) (h429 : resp.status = 429) :
    ((queryOne http path).requests = 2 ∧ (queryOne http path).waited = 5) ∧
    (∀ q, http q 0 = none → (queryOne http q).result = none) ∧
    (∀ q r0, http q 0 = some r0 → r0.status ≠ 429 → 400 ≤ r0.status →
        (queryOne http q).result = none) ∧
    (∀ q r0, http q 0 = some r0 → r0.status = 429 → http q 1 = none →
        (queryOne http q).result = none) ∧
    (∀ q r0 r1, http q 0 = some r0 → r0.status = 429 → http q 1 = some r1 →
        400 ≤ r1.status → (queryOne http q).result = none) ∧
    (∀ paths, (batchQuery http paths).map Prod.fst = paths ∧
      ∀ i : Nat, (batchQuery http paths)[i]?
        = (paths[i]?).map (fun q => (q, (queryOne http q).result))) := by
  refine ⟨?_, ?_, ?_, ?_, ?_, ?_⟩
  · simp only [queryOne, h0, h429, if_pos]
    cases http path 1 with
    | none => exact ⟨rfl, rfl⟩
    | some retry =>
        by_cases hs : 400 ≤ retry.status
        · simp [hs]
        · simp [hs]
  · intro q hq
    simp [queryOne, hq]
  · intro q r0 hq hne hge
    simp only [queryOne, hq]
    rw [if_neg hne, if_pos hge]
  · intro q r0 hq h429' hq1
    simp [queryOne, hq, h429', hq1]
  · intro q r0 r1 hq h429' hq1 hge
    simp only [queryOne, hq, h429', if_pos]
    simp [hq1, hge]
  · intro paths
    constructor
    · rw [batchQuery_eq_map, List.map_map]
      exact List.map_id paths
    · intro i
      rw [batchQuery_eq_map, List.getElem?_map]

/-- An HTTP oracle that rate-limits the first request and then serves a
valid record. -/
def http429 : String → Nat → Option HttpResponse :=
  fun _ n => if n = 0 then some ⟨429, noBodyResp⟩ else some ⟨200, noBodyResp⟩

/-- C4 witness: the theorem at a concrete rate-limited oracle. -/
theorem C4_retry_witness :
    ((queryOne http429 "/n").requests = 2 ∧ (queryOne http429 "/n").waited = 5) ∧
    (∀ q, http429 q 0 = none → (queryOne http429 q).result = none) ∧
    (∀ q r0, http429 q 0 = some r0 → r0.status ≠ 429 → 400 ≤ r0.status →
        (queryOne http429 q).result = none) ∧
    (∀ q r0, http429 q 0 = some r0 → r0.status = 429 → http429 q 1 = none →
        (queryOne http429 q).result = none) ∧
    (∀ q r0 r1, http429 q 0 = some r0 → r0.status = 429 → http429 q 1 = some r1 →
        400 ≤ r1.status → (queryOne http429 q).result = none) ∧
    (∀ paths, (batchQuery http429 paths).map Prod.fst = paths ∧
      ∀ i : Nat, (batchQuery http429 paths)[i]?
        = (paths[i]?).map (fun q => (q, (queryOne http429 q).result))) :=
  C4_retry_and_per_path_isolation http429 "/n" ⟨429, noBodyResp⟩ rfl rfl

/-- C5: the augmentation is all-or-nothing.  Starting from a record with
no augmentation (as every Fetcher-produced record is), `process_batch`
leaves `synthetic_data` either absent or fully populated with a rewrite
(and a snippet list), and any failure in either language-model call —
including the snippet call running after a successful rewrite — leaves
the record entirely untouched. -/
theorem C5_all_or_nothing (rewriteCall : String → Option String)
    (snippetsCall : String → Option (List Snippet)) (page : GovPage)
    (h : page.synthetic_data = none) :
    ((synthOne rewriteCall snippetsCall page).synthetic_data = none ∨
      ∃ art snips, (synthOne rewriteCall snippetsCall page).synthetic_data
        = some ⟨art, some ⟨snips⟩⟩) ∧
    (∀ b, page.details.body = some b →
      (rewriteCall b = none ∨ snippetsCall b = none) →
        synthOne rewriteCall snippetsCall page = page) := by
  constructor
  · cases hgb : page.details.body with
    | none => rw [synthOne_no_body _ _ _ (by rw [hgb]; rfl)]; exact Or.inl h
    | some b =>
        by_cases hb : b = ""
        · rw [synthOne_no_body _ _ _ (by rw [hgb, hb]; rfl)]
          exact Or.inl h
        · cases hrw : rewriteCall b with
          | none =>
              rw [synthOne_failure _ _ _ (fun b' hb' => by
                rw [hgb] at hb'
                obtain rfl := Option.some.inj hb'
                exact Or.inl hrw)]
              exact Or.inl h
          | some art =>
              cases hsn : snippetsCall b with
              | none =>
                  rw [synthOne_failure _ _ _ (fun b' hb' => by
                    rw [hgb] at hb'
                    obtain rfl := Option.some.inj hb'
                    exact Or.inr hsn)]
                  exact Or.inl h
              | some snips =>
                  rw [synthOne_success _ _ _ b art snips hgb hb hrw hsn]
                  exact Or.inr ⟨art, snips, rfl⟩
  · intro b hgb hf
    refine synthOne_failure _ _ _ (fun b' hb' => ?_)
    rw [hgb] at hb'
    obtain rfl := Option.some.inj hb'
    exact hf

/-- A page with a body, no augmentation yet. -/
def basePage : GovPage :=
  ⟨"t", "/b", "cid", "news_story", "news", ⟨some "body text", none⟩, none⟩

/-- C5 witness: the theorem at a concrete page whose snippet call
fails. -/
theorem C5_all_or_nothing_witness :
    ((synthOne (fun _ => some "bad") (fun _ => none) basePage).synthetic_data = none ∨
      ∃ art snips, (synthOne (fun _ => some "bad") (fun _ => none) basePage).synthetic_data
        = some ⟨art, some ⟨snips⟩⟩) ∧
    (∀ b, basePage.details.body = some b →
      ((fun _ => some "bad" : String → Option String) b = none ∨
        (fun _ => none : String → Option (List Snippet)) b = none) →
        synthOne (fun _ => some "bad") (fun _ => none) basePage = basePage) :=
  C5_all_or_nothing (fun _ => some "bad") (fun _ => none) basePage rfl

/-- C6: partial-failure isolation.  With the language-model calls failing
at position N (= `pre.length`) and succeeding at position N+1, the
processed sequence keeps its length, keeps record N unchanged (no
augmentation) at position N, and carries record N+1, augmented, at
position N+1. -/
theorem C6_partial_failure_isolation (rewriteAt : Nat → String → Option String)
    (snippetsAt : Nat → String → Option (List Snippet))
    (pre post : List GovPage) (pN pN1 : GovPage) (b1 art : String) (snips : List Snippet)
    (hfail : ∀ b, pN.details.body = some b →
        rewriteAt pre.length b = none ∨ snippetsAt pre.length b = none)
    (hb : pN1.details.body = some b1) (hbne : b1 ≠ "")
    (hrw : rewriteAt (pre.length + 1) b1 = some art)
    (hsn : snippetsAt (pre.length + 1) b1 = some snips) :
    (synthMain rewriteAt snippetsAt 0 (pre ++ pN :: pN1 :: post)).length
        = (pre ++ pN :: pN1 :: post).length ∧
    (synthMain rewriteAt snippetsAt 0 (pre ++ pN :: pN1 :: post))[pre.length]?
        = some pN ∧
    (synthMain rewriteAt snippetsAt 0 (pre ++ pN :: pN1 :: post))[pre.length + 1]?
        = some (setSynth pN1 (some ⟨art, some ⟨snips⟩⟩)) := by
  rw [synthMain_eq_mapFrom, synthMapFrom_append]
  have hlen : (synthMapFrom rewriteAt snippetsAt 0 pre).length = pre.length :=
    synthMapFrom_length _ _ pre 0
  have hcons : synthMapFrom rewriteAt snippetsAt (0 + pre.length) (pN :: pN1 :: post)
      = synthOne (rewriteAt pre.length) (snippetsAt pre.length) pN
        :: synthOne (rewriteAt (pre.length + 1)) (snippetsAt (pre.length + 1)) pN1
        :: synthMapFrom rewriteAt snippetsAt (pre.length + 1 + 1) post := by
    rw [Nat.zero_add]
    rfl
  rw [hcons]
  refine ⟨?_, ?_, ?_⟩
  · simp [hlen, synthMapFrom_length]
  · rw [List.getElem?_append_right (by rw [hlen])]
    rw [hlen, Nat.sub_self, List.getElem?_cons_zero]
    rw [synthOne_failure _ _ _ hfail]
  · rw [List.getElem?_append_right (by rw [hlen]; omega)]
    rw [hlen, show pre.length + 1 - pre.length = 0 + 1 from by omega]
    rw [List.getElem?_cons_succ, List.getElem?_cons_zero]
    rw [synthOne_success _ _ _ b1 art snips hb hbne hrw hsn]

/-- A second page, also with a body and no augmentation. -/
def basePage2 : GovPage :=
  ⟨"t2", "/b2", "cid2", "news_story", "news", ⟨some "body two", none⟩, none⟩

/-- C6 witness: a two-record run where the first record's rewrite call
fails and the second record's calls succeed. -/
theorem C6_partial_failure_isolation_witness :
    (synthMain (fun i _ => if i = 0 then none else some "bad")
        (fun _ _ => some [⟨"w", "b"⟩]) 0 ([] ++ basePage :: basePage2 :: [])).length
        = ([] ++ basePage :: basePage2 :: []).length ∧
    (synthMain (fun i _ => if i = 0 then none else some "bad")
        (fun _ _ => some [⟨"w", "b"⟩]) 0 ([] ++ basePage :: basePage2 :: []))[(0 : Nat)]?
        = some basePage ∧
    (synthMain (fun i _ => if i = 0 then none else some "bad")
        (fun _ _ => some [⟨"w", "b"⟩]) 0 ([] ++ basePage :: basePage2 :: []))[(0 + 1 : Nat)]?
        = some (setSynth basePage2 (some ⟨"bad", some ⟨[⟨"w", "b"⟩]⟩⟩)) :=
  C6_partial_failure_isolation (fun i _ => if i = 0 then none else some "bad")
    (fun _ _ => some [⟨"w", "b"⟩]) [] [] basePage basePage2 "body two" "bad" [⟨"w", "b"⟩]
    (fun b _ => Or.inl rfl) rfl (by decide) rfl rfl

/-- Pointwise description of the indexed map: position `j` of the output
is `synthOne` (at absolute index `i + j`) of position `j` of the
input. -/
theorem synthMapFrom_getElem? (rewriteAt : Nat → String → Option String)
    (snippetsAt : Nat → String → Option (List Snippet)) :
    ∀ (l : List GovPage) (i j : Nat),
      (synthMapFrom rewriteAt snippetsAt i l)[j]?
        = (l[j]?).map (fun p => synthOne (rewriteAt (i + j)) (snippetsAt (i + j)) p) := by
  intro l
  induction l with
  | nil => intro i j; simp [synthMapFrom]
  | cons p ps ih =>
      intro i j
      cases j with
      | zero => simp [synthMapFrom]
      | succ j =>
          simp only [synthMapFrom, List.getElem?_cons_succ]
          rw [ih (i + 1) j, show i + 1 + j = i + (j + 1) from by omega]

/-- C7: the Synthesizer returns the full input sequence in order, with
every field except `synthetic_data` untouched (positionwise the records
agree once `synthetic_data` is masked out), and records without a truthy
body are returned identically — only records with a non-empty body can
acquire an augmentation. -/
theorem C7_frame_only_augmentation (rewriteAt : Nat → String → Option String)
    (snippetsAt : Nat → String → Option (List Snippet)) (pages : List GovPage) :
    (synthMain rewriteAt snippetsAt 0 pages).length = pages.length ∧
    (∀ i : Nat,
      ((synthMain rewriteAt snippetsAt 0 pages)[i]?).map (fun g => setSynth g none)
        = (pages[i]?).map (fun g => setSynth g none)) ∧
    (∀ (i : Nat) (p : GovPage), pages[i]? = some p →
      optNonEmpty p.details.body = false →
        (synthMain rewriteAt snippetsAt 0 pages)[i]? = some p) := by
  rw [synthMain_eq_mapFrom]
  refine ⟨synthMapFrom_length _ _ pages 0, ?_, ?_⟩
  · intro i
    rw [synthMapFrom_getElem?]
    cases hp : pages[i]? with
    | none => rfl
    | some p =>
        simp only [Option.map_some']
        rw [synthOne_setSynth]
  · intro i p hp hnb
    rw [synthMapFrom_getElem?, hp, Option.map_some',
      synthOne_no_body _ _ _ hnb]

/-- C7 witness: the frame property at a concrete two-record input, one
record with a body and one without. -/
theorem C7_frame_only_augmentation_witness :
    (synthMain (fun _ _ => some "bad") (fun _ _ => some []) 0
        [basePage, noBodyPage]).length = [basePage, noBodyPage].length ∧
    (∀ i : Nat,
      ((synthMain (fun _ _ => some "bad") (fun _ _ => some []) 0
          [basePage, noBodyPage])[i]?).map (fun g => setSynth g none)
        = ([basePage, noBodyPage][i]?).map (fun g => setSynth g none)) ∧
    (∀ (i : Nat) (p : GovPage), [basePage, noBodyPage][i]? = some p →
      optNonEmpty p.details.body = false →
        (synthMain (fun _ _ => some "bad") (fun _ _ => some []) 0
          [basePage, noBodyPage])[i]? = some p) :=
  C7_frame_only_augmentation (fun _ _ => some "bad") (fun _ _ => some []) [basePage, noBodyPage]

/-- The sleep count over batches of 10 is one fewer than the number of
batches: the pause is taken after every batch except the last. -/
theorem synthSleepCount_batches (n : Nat) (hn : 0 < n) :
    synthSleepCount n 10 = numBatches n 10 - 1 := by
  have hBpos : 0 < numBatches n 10 := by
    unfold numBatches
    omega
  obtain ⟨m, hm⟩ : ∃ m, numBatches n 10 = m + 1 := ⟨numBatches n 10 - 1, by omega⟩
  have hcongr : (List.range (numBatches n 10)).filter (fun k => decide (k * 10 + 10 < n))
      = (List.range (numBatches n 10)).filter (fun k => decide (k < m)) := by
    apply List.filter_congr
    intro k hk
    rw [List.mem_range] at hk
    unfold numBatches at hk hm
    by_cases hcond : k * 10 + 10 < n
    · rw [decide_eq_true hcond, decide_eq_true (show k < m by omega)]
    · rw [decide_eq_false hcond, decide_eq_false (show ¬(k < m) by omega)]
  unfold synthSleepCount
  rw [hcongr, hm, List.range_succ, List.filter_append]
  have hall : (List.range m).filter (fun k => decide (k < m)) = List.range m := by
    apply List.filter_eq_self.mpr
    intro a ha
    rw [List.mem_range] at ha
    exact decide_eq_true ha
  have hlast : [m].filter (fun k => decide (k < m)) = [] := by
    simp
  rw [hall, hlast, List.append_nil, List.length_range]
  omega

/-- C9: rate limiting.  Fetcher: with batch `j` taking `d j ≥ 0` seconds
and padded by `time.sleep(1 - duration)` when it ran under a second, the
last of `B` batches starts at least `B − 1` seconds after the first.
Synthesizer: over `n > 0` records in batches of 10, exactly
`numBatches n 10 − 1` one-second pauses occur — one between consecutive
batches, none after the last. -/
theorem C9_rate_limiting (d : Nat → ℚ) (B n : Nat)
    (_hd : ∀ j, 0 ≤ d j) (hB : 1 ≤ B) (hn : 0 < n) :
    ((B : ℚ) - 1 ≤ fetchBatchStart d (B - 1) - fetchBatchStart d 0) ∧
    synthSleepCount n 10 = numBatches n 10 - 1 := by
  constructor
  · have h := fetchBatchStart_ge d (B - 1)
    have hcast : ((B - 1 : Nat) : ℚ) = (B : ℚ) - 1 := by
      rw [Nat.cast_sub hB, Nat.cast_one]
    rw [show fetchBatchStart d 0 = 0 from rfl]
    rw [hcast] at h
    linarith
  · exact synthSleepCount_batches n hn

/-- C9 witness: three batches of fast (0.2 s) batches are padded to at
least one second apart, and 25 records yield exactly 2 pauses over 3
batches. -/
theorem C9_rate_limiting_witness :
    (((3 : Nat) : ℚ) - 1 ≤ fetchBatchStart (fun _ => (1 : ℚ) / 5) ((3 : Nat) - 1)
        - fetchBatchStart (fun _ => (1 : ℚ) / 5) 0) ∧
    synthSleepCount 25 10 = numBatches 25 10 - 1 :=
  C9_rate_limiting (fun _ => (1 : ℚ) / 5) 3 25
    (fun _ => by norm_num) (by omega) (by omega)
